import Mathlib

/-!
A shallow embedding of the N-body simulator in `src/apps/nbody.py`:
the `Body` class (`force`, `update`, `collision`), the per-tick world
update `update_orbits` (advance every body in place, then the collision
pass), the main loop's escape check, and spawning, over exact real
arithmetic.
-/

namespace NBody

noncomputable section

open Classical

/-- Componentwise addition of 2-D vectors (numpy elementwise `+`). -/
def vadd (a b : ℝ × ℝ) : ℝ × ℝ := (a.1 + b.1, a.2 + b.2)

/-- Componentwise subtraction of 2-D vectors (numpy elementwise `-`). -/
def vsub (a b : ℝ × ℝ) : ℝ × ℝ := (a.1 - b.1, a.2 - b.2)

/-- Scalar times 2-D vector (numpy scalar broadcasting). -/
def vsmul (k : ℝ) (a : ℝ × ℝ) : ℝ × ℝ := (k * a.1, k * a.2)

/-- 2-D vector divided by a scalar (numpy scalar broadcasting). -/
def vdivs (a : ℝ × ℝ) (k : ℝ) : ℝ × ℝ := (a.1 / k, a.2 / k)

/-- Euclidean norm of a 2-D vector (`np.linalg.norm`). -/
def vnorm (a : ℝ × ℝ) : ℝ := Real.sqrt (a.1 ^ 2 + a.2 ^ 2)

/-- Gravitational constant of the source: `G = 6.67E-11`. -/
def G : ℝ := 6.67e-11

/-- Space boundary of the source: `spacemax = 170E6`. -/
def spacemax : ℝ := 170e6

/-- A body.  `id` models Python object identity (`target == self` on a
class with no `__eq__` compares identity); the other fields are the
instance attributes set in `Body.__init__` (the derived `px`/`py`
plotting mirrors of `p` are omitted). -/
structure Body where
  id : ℕ
  m : ℝ
  v : ℝ × ℝ
  p : ℝ × ℝ
  c : ℕ × ℕ × ℕ
  r : ℝ
  hmax : ℝ
  h : ℝ
  lte_tolerance : ℝ

instance : Inhabited Body := ⟨⟨0, 0, (0, 0), (0, 0), (0, 0, 0), 0, 0, 0, 0⟩⟩

/-- `Body.__init__(mass, velocity, position, color, radius)`: sets the
five attributes and `hmax = 1000`, `h = hmax`, `lte_tolerance = 10000`. -/
def mkBody (nid : ℕ) (mass : ℝ) (vel pos : ℝ × ℝ) (col : ℕ × ℕ × ℕ) (rad : ℝ) : Body :=
  { id := nid, m := mass, v := vel, p := pos, c := col, r := rad,
    hmax := 1000, h := 1000, lte_tolerance := 10000 }

/-- One term `G * self.m * target.m * (target.p - self.p) / norm(target.p - self.p)**3`
of the force loop. -/
def pairForce (self target : Body) : ℝ × ℝ :=
  vdivs (vsmul (G * self.m * target.m) (vsub target.p self.p))
    (vnorm (vsub target.p self.p) ^ 3)

/-- The loop of `Body.force`.  `fc` is the Python local variable `force`,
`acc` is `sum_force`.  On the `target == self` iteration the branch only
runs `pass`, yet `sum_force = sum_force + force` still executes and
re-adds the previously computed `force` value (initially `0`). -/
def forceLoop (self : Body) : List Body → ℝ × ℝ → ℝ × ℝ → ℝ × ℝ
  | [], _, acc => acc
  | t :: ts, fc, acc =>
    if t.id = self.id then forceLoop self ts fc (vadd acc fc)
    else forceLoop self ts (pairForce self t) (vadd acc (pairForce self t))

/-- `Body.force(targets)`: total force on `self` from `targets`. -/
def force (self : Body) (targets : List Body) : ℝ × ℝ :=
  forceLoop self targets (0, 0) (0, 0)

/-- `Body.update(targets)`, statement for statement: Euler predictor,
Heun corrector (`self.p` is assigned BEFORE the second `self.force`
call on the next line, so that call sees the already-updated position),
local truncation error, and the adaptive step with its upper clamp. -/
def update (self : Body) (targets : List Body) : Body :=
  let fe := force self targets
  let pe := vadd self.p (vsmul self.h self.v)
  let ve := vadd self.v (vdivs (vsmul self.h fe) self.m)
  let self1 := { self with p := vadd self.p (vdivs (vsmul self.h (vadd self.v ve)) 2) }
  let self2 := { self1 with
    v := vadd self1.v (vdivs (vsmul self1.h (vadd fe (force self1 targets))) (2 * self1.m)) }
  let lte := vnorm (vsub pe self2.p) + self2.h * vnorm (vsub ve self2.v)
  let hnew := self2.h * Real.sqrt (self2.lte_tolerance / lte)
  if hnew > self2.hmax then { self2 with h := self2.hmax } else { self2 with h := hnew }

/-- Euler predictor position `pe = p + h * v` of `Body.update`. -/
def eulerPos (b : Body) : ℝ × ℝ := vadd b.p (vsmul b.h b.v)

/-- Euler predictor velocity `ve = v + h * force / m` of `Body.update`. -/
def eulerVel (b : Body) (ts : List Body) : ℝ × ℝ :=
  vadd b.v (vdivs (vsmul b.h (force b ts)) b.m)

/-- The corrected position `p + h * (v + ve) / 2` committed by `Body.update`. -/
def heunPos (b : Body) (ts : List Body) : ℝ × ℝ :=
  vadd b.p (vdivs (vsmul b.h (vadd b.v (eulerVel b ts))) 2)

/-- The corrected velocity `v + h * (fe + force') / (2 * m)` committed by
`Body.update`, where `force'` is the second force evaluation, taken at
the already-updated position `heunPos`. -/
def heunVel (b : Body) (ts : List Body) : ℝ × ℝ :=
  vadd b.v (vdivs (vsmul b.h (vadd (force b ts) (force { b with p := heunPos b ts } ts)))
    (2 * b.m))

/-- The local truncation error `norm(pe - p) + h * norm(ve - v)` computed
by `Body.update` after committing position and velocity. -/
def lteOf (b : Body) (ts : List Body) : ℝ :=
  vnorm (vsub (eulerPos b) (heunPos b ts)) + b.h * vnorm (vsub (eulerVel b ts) (heunVel b ts))

/-- The candidate new step `hnew = h * sqrt(lte_tolerance / lte)` of
`Body.update`. -/
def hnewOf (b : Body) (ts : List Body) : ℝ :=
  b.h * Real.sqrt (b.lte_tolerance / lteOf b ts)

/-- The loop of `Body.collision(targets)`: on the `target == self`
iteration it tests escape from the space (`norm(self.p) > spacemax`),
on every other iteration it tests overlap
(`norm(target.p - self.p) < target.r + self.r`); any hit returns at once. -/
def collision (self : Body) : List Body → Prop
  | [] => False
  | t :: ts =>
    if t.id = self.id then
      if spacemax < vnorm self.p then True else collision self ts
    else
      if vnorm (vsub t.p self.p) < t.r + self.r then True else collision self ts

/-- `bodies.remove(body)`: drop the first element identical to the given
body (identified by `id`). -/
def removeFirst (nid : ℕ) : List Body → List Body
  | [] => []
  | b :: bs => if b.id = nid then bs else b :: removeFirst nid bs

/-- The collision pass of `update_orbits`: iterate over the snapshot
`bodies[1:]`, checking each body against the LIVE list and removing it
from the live list on a hit. -/
def collisionPassGo : List Body → List Body → List Body
  | [], live => live
  | b :: rest, live =>
    if collision b live then collisionPassGo rest (removeFirst b.id live)
    else collisionPassGo rest live

/-- `for body in bodies[1:]: if body.collision(bodies): bodies.remove(body)`. -/
def collisionPass (bodies : List Body) : List Body :=
  collisionPassGo (bodies.drop 1) bodies

/-- `n` iterations of the first loop of `update_orbits` starting at index
`s`: each iteration replaces the body at the current index by its update
against the CURRENT (partially updated) live list, exactly as the Python
loop mutates each body in place while iterating. -/
def advanceSteps : ℕ → ℕ → List Body → List Body
  | 0, _, bs => bs
  | n + 1, s, bs => advanceSteps n (s + 1) (bs.set s (update (bs.getD s default) bs))

/-- The first loop of `update_orbits`: `for body in bodies: body.update(bodies)`. -/
def advanceAll (bs : List Body) : List Body :=
  advanceSteps bs.length 0 bs

/-- `update_orbits()` without the drawing calls: advance every body in
place, then run the collision pass over `bodies[1:]`. -/
def update_orbits (bs : List Body) : List Body :=
  collisionPass (advanceAll bs)

/-- Outcome of one main-loop iteration: either the process exits
(`sys.exit(code)`) or the simulation keeps running with the new body list. -/
inductive TickResult where
  | terminated : ℕ → TickResult
  | running : List Body → TickResult

/-- One main-loop iteration up to the escape check:
`update_orbits()` then `if np.linalg.norm(bodies[0].p) > spacemax: sys.exit(0)`. -/
def sessionStep (bs : List Body) : TickResult :=
  if spacemax < vnorm ((update_orbits bs).headD default).p then .terminated 0
  else .running (update_orbits bs)

/-- Spawning (the LMB branch of the main loop): construct a fresh `Body`
and append it to the live list. -/
def spawn (bs : List Body) (nid : ℕ) (mass : ℝ) (vel pos : ℝ × ℝ)
    (col : ℕ × ℕ × ℕ) (rad : ℝ) : List Body :=
  bs ++ [mkBody nid mass vel pos col rad]

/-- The initial body list: Earth at the origin and a spacecraft in GEO
orbit (its random color is a parameter). -/
def initBodies (col : ℕ × ℕ × ℕ) : List Body :=
  [mkBody 0 5.97e24 (0, 0) (0, 0) (0, 0, 255) 32e5,
   mkBody 1 1e20 (4e3, 0) (0, 42e6) col 16e5]

/-- Body lists reachable by the running session: the initial list,
followed by any interleaving of main-loop ticks and spawns.  A spawned
body is a fresh Python object, so its identity differs from every live
body's. -/
inductive Reachable : List Body → Prop
  | init (col : ℕ × ℕ × ℕ) : Reachable (initBodies col)
  | tick (bs : List Body) : Reachable bs → Reachable (update_orbits bs)
  | spawned (bs : List Body) (nid : ℕ) (mass : ℝ) (vel pos : ℝ × ℝ)
      (col : ℕ × ℕ × ℕ) (rad : ℝ) :
      Reachable bs → nid ∉ bs.map Body.id →
      Reachable (spawn bs nid mass vel pos col rad)

/-- The force sum the specification describes for `force(b, ts)`,
written from the spec's words: `G = 6.674e-11`, and every body `t ≠ b`
contributes `G * m_b * m_t * (p_t - p_b) / |p_t - p_b|^3` while `b`
itself contributes nothing. -/
def specForce (b : Body) (ts : List Body) : ℝ × ℝ :=
  ts.foldl (fun acc t =>
    if t.id = b.id then acc
    else vadd acc (vdivs (vsmul (6.674e-11 * b.m * t.m) (vsub t.p b.p))
      (vnorm (vsub t.p b.p) ^ 3))) (0, 0)

/-- The sum of the genuine pairwise forces on `b` from `ts`, in loop order. -/
def sumForces (b : Body) (ts : List Body) : ℝ × ℝ :=
  ts.foldl (fun acc t => vadd acc (pairForce b t)) (0, 0)

/-- The tick semantics the specification claims: every body advanced
against the pre-tick snapshot of the body list. -/
def snapshotAdvanceAll (bs : List Body) : List Body :=
  bs.map (fun b => update b bs)

/-- Example body: unit mass at rest at the origin, step `h = 1`. -/
def cbA : Body :=
  { id := 0, m := 1, v := (0, 0), p := (0, 0), c := (0, 0, 0), r := 1,
    hmax := 1000, h := 1, lte_tolerance := 10000 }

/-- Example body: mass `10^13 / 667` (so `G * cbA.m * cbOther.m = 1`)
at rest at `(0, 1)`. -/
def cbOther : Body :=
  { id := 1, m := 10 ^ 13 / 667, v := (0, 0), p := (0, 1), c := (0, 0, 0), r := 1,
    hmax := 1000, h := 1, lte_tolerance := 10000 }

/-- Example anchor: at the origin with the Earth radius `32E5` of the source. -/
def cpAnchor : Body :=
  { id := 0, m := 1, v := (0, 0), p := (0, 0), c := (0, 0, 0), r := 32e5,
    hmax := 1000, h := 1000, lte_tolerance := 10000 }

/-- Example body beyond the space boundary (`2E8 > spacemax`) and far
from every other body. -/
def cpFar : Body :=
  { id := 1, m := 1, v := (0, 0), p := (2e8, 0), c := (0, 0, 0), r := 16e5,
    hmax := 1000, h := 1000, lte_tolerance := 10000 }

/-- Example body at `(1E8, 0)` with radius `16E5`. -/
def cpB : Body :=
  { id := 1, m := 1, v := (0, 0), p := (1e8, 0), c := (0, 0, 0), r := 16e5,
    hmax := 1000, h := 1000, lte_tolerance := 10000 }

/-- Example body at `(1.02E8, 0)` with radius `16E5`: it overlaps `cpB`
(distance `2E6 < 3.2E6`) and no other example body. -/
def cpC : Body :=
  { id := 2, m := 1, v := (0, 0), p := (1.02e8, 0), c := (0, 0, 0), r := 16e5,
    hmax := 1000, h := 1000, lte_tolerance := 10000 }

/-- Example lone body whose single tick carries it beyond the boundary:
`p + h * v = (0, 1.6E8 + 1000 * 1E5) = (0, 2.6E8)`. -/
def escB : Body :=
  { id := 0, m := 1, v := (0, 1e5), p := (0, 1.6e8), c := (0, 0, 0), r := 32e5,
    hmax := 1000, h := 1000, lte_tolerance := 10000 }

/-! ### Basic vector lemmas -/

@[simp] theorem vadd_mk (a b c d : ℝ) : vadd (a, b) (c, d) = (a + c, b + d) := rfl

@[simp] theorem vsub_mk (a b c d : ℝ) : vsub (a, b) (c, d) = (a - c, b - d) := rfl

@[simp] theorem vsmul_mk (k a b : ℝ) : vsmul k (a, b) = (k * a, k * b) := rfl

@[simp] theorem vdivs_mk (a b k : ℝ) : vdivs (a, b) k = (a / k, b / k) := rfl

theorem vnorm_nonneg (a : ℝ × ℝ) : 0 ≤ vnorm a := Real.sqrt_nonneg _

theorem vnorm_eq (a : ℝ × ℝ) (c : ℝ) (hc : 0 ≤ c)
    (h : a.1 ^ 2 + a.2 ^ 2 = c ^ 2) : vnorm a = c := by
  unfold vnorm
  rw [h]
  exact Real.sqrt_sq hc

/-! ### Characterization of `update` -/

theorem update_spec (b : Body) (ts : List Body) :
    update b ts =
      if hnewOf b ts > b.hmax then
        { b with p := heunPos b ts, v := heunVel b ts, h := b.hmax }
      else
        { b with p := heunPos b ts, v := heunVel b ts, h := hnewOf b ts } := rfl

theorem update_p (b : Body) (ts : List Body) : (update b ts).p = heunPos b ts := by
  rw [update_spec]; split <;> rfl

theorem update_v (b : Body) (ts : List Body) : (update b ts).v = heunVel b ts := by
  rw [update_spec]; split <;> rfl

theorem update_id (b : Body) (ts : List Body) : (update b ts).id = b.id := by
  rw [update_spec]; split <;> rfl

theorem update_m (b : Body) (ts : List Body) : (update b ts).m = b.m := by
  rw [update_spec]; split <;> rfl

theorem update_hmax (b : Body) (ts : List Body) : (update b ts).hmax = b.hmax := by
  rw [update_spec]; split <;> rfl

/-! ### Unfolding lemmas for the force loop -/

/-! ### Concrete force and integrator evaluations on the example bodies -/

theorem pairForce_A_O : pairForce cbA cbOther = (0, 1) := by
  have hn : vnorm (vsub cbOther.p cbA.p) = 1 :=
    vnorm_eq _ 1 (by norm_num) (by norm_num [vsub, cbA, cbOther])
  unfold pairForce
  rw [hn]
  norm_num [cbA, cbOther, G, vsub, vsmul, vdivs]

theorem pairForce_O_A : pairForce cbOther cbA = (0, -1) := by
  have hn : vnorm (vsub cbA.p cbOther.p) = 1 :=
    vnorm_eq _ 1 (by norm_num) (by norm_num [vsub, cbA, cbOther])
  unfold pairForce
  rw [hn]
  norm_num [cbA, cbOther, G, vsub, vsmul, vdivs]

theorem force_A : force cbA [cbA, cbOther] = (0, 1) := by
  unfold force
  simp only [forceLoop]
  rw [pairForce_A_O]
  norm_num [cbA, cbOther, vadd]

theorem force_O : force cbOther [cbA, cbOther] = (0, -2) := by
  unfold force
  simp only [forceLoop]
  rw [pairForce_O_A]
  norm_num [cbA, cbOther, vadd]

theorem force_A_rev : force cbA [cbOther, cbA] = (0, 2) := by
  unfold force
  simp only [forceLoop]
  rw [pairForce_A_O]
  norm_num [cbA, cbOther, vadd]

theorem eulerVel_A : eulerVel cbA [cbA, cbOther] = (0, 1) := by
  unfold eulerVel
  rw [force_A]
  norm_num [cbA, vadd, vsmul, vdivs]

theorem heunPos_A : heunPos cbA [cbA, cbOther] = (0, 1 / 2) := by
  unfold heunPos
  rw [eulerVel_A]
  norm_num [cbA, vadd, vsmul, vdivs]

theorem force_shift_eval (b : Body) (hid : b.id = 0) (hm : b.m = 1)
    (hp : b.p = ((0 : ℝ), (1 : ℝ) / 2)) : force b [cbA, cbOther] = (0, 4) := by
  have hn : vnorm (vsub cbOther.p b.p) = 1 / 2 :=
    vnorm_eq _ (1 / 2) (by norm_num) (by norm_num [vsub, cbOther, hp])
  have hpf : pairForce b cbOther = (0, 4) := by
    unfold pairForce
    rw [hn, hm, hp]
    norm_num [cbOther, G, vsub, vsmul, vdivs]
  unfold force
  simp only [forceLoop]
  rw [hpf]
  norm_num [cbA, cbOther, hid, vadd]

theorem heunVel_A : heunVel cbA [cbA, cbOther] = (0, 5 / 2) := by
  have hrec : force { cbA with p := heunPos cbA [cbA, cbOther] } [cbA, cbOther] = (0, 4) := by
    apply force_shift_eval
    · rfl
    · rfl
    · rw [show ({ cbA with p := heunPos cbA [cbA, cbOther] } : Body).p
          = heunPos cbA [cbA, cbOther] from rfl, heunPos_A]
  unfold heunVel
  rw [force_A, hrec]
  norm_num [cbA, vadd, vsmul, vdivs]

theorem eulerPos_A : eulerPos cbA = (0, 0) := by
  norm_num [eulerPos, cbA, vadd, vsmul]

theorem lteOf_A : lteOf cbA [cbA, cbOther] = 2 := by
  unfold lteOf
  rw [eulerPos_A, heunPos_A, eulerVel_A, heunVel_A]
  rw [show vsub ((0 : ℝ), (0 : ℝ)) ((0 : ℝ), (1 : ℝ) / 2) = (0, -(1 / 2)) from by norm_num [vsub]]
  rw [show vsub ((0 : ℝ), (1 : ℝ)) ((0 : ℝ), (5 : ℝ) / 2) = (0, -(3 / 2)) from by norm_num [vsub]]
  rw [vnorm_eq (0, -(1 / 2)) (1 / 2) (by norm_num) (by norm_num)]
  rw [vnorm_eq (0, -(3 / 2)) (3 / 2) (by norm_num) (by norm_num)]
  norm_num [cbA]

/-! ### The force loop on lists without the body itself -/

theorem forceLoop_no_self (b : Body) :
    ∀ (ts : List Body) (fc acc : ℝ × ℝ), (∀ t ∈ ts, t.id ≠ b.id) →
      forceLoop b ts fc acc = ts.foldl (fun a t => vadd a (pairForce b t)) acc := by
  intro ts
  induction ts with
  | nil => intro fc acc _; rfl
  | cons t ts ih =>
    intro fc acc h
    have ht : t.id ≠ b.id := h t (List.mem_cons_self t ts)
    simp only [forceLoop]
    rw [if_neg ht, ih _ _ (fun x hx => h x (List.mem_cons_of_mem _ hx)), List.foldl_cons]

/-! ### Evaluations of the spec's force formula on the example bodies -/

theorem specForce_A : specForce cbA [cbA, cbOther] = (0, 3337 / 3335) := by
  have hn : vnorm (vsub cbOther.p cbA.p) = 1 :=
    vnorm_eq _ 1 (by norm_num) (by norm_num [vsub, cbA, cbOther])
  unfold specForce
  simp only [List.foldl]
  rw [hn]
  norm_num [cbA, cbOther, vadd, vsub, vsmul, vdivs]

theorem specForce_A_rev : specForce cbA [cbOther, cbA] = (0, 3337 / 3335) := by
  have hn : vnorm (vsub cbOther.p cbA.p) = 1 :=
    vnorm_eq _ 1 (by norm_num) (by norm_num [vsub, cbA, cbOther])
  unfold specForce
  simp only [List.foldl]
  rw [hn]
  norm_num [cbA, cbOther, vadd, vsub, vsmul, vdivs]

/-! ### Claims C1, C2, C4, C5, C9 -/

/-- C1 counterexample: the claim's sum (gravitational constant
`6.674e-11`, the body itself contributing nothing wherever it sits) is
`specForce`.  With `cbA ∈ ts` and all positions distinct, the code
disagrees with it both when `cbA` is first (the code's constant is
`6.67e-11`: code `(0, 1)` vs claim `(0, 3337/3335)`) and when `cbA` is
last (the self iteration re-adds the previous pairwise force: code
`(0, 2)`). -/
theorem C1_counterexample :
    force cbA [cbA, cbOther] ≠ specForce cbA [cbA, cbOther] ∧
      force cbA [cbOther, cbA] ≠ specForce cbA [cbOther, cbA] := by
  rw [force_A, specForce_A, force_A_rev, specForce_A_rev]
  constructor <;> norm_num [Prod.ext_iff]

/-- C1 (amended): with the code's constant `G = 6.67e-11`, and for a
target list in which the body itself comes FIRST (as in `update_orbits`
for the anchor) and appears nowhere else, `force` returns exactly the
vector sum of the pairwise forces on the body from the other bodies;
an occurrence of the body later in the list would instead re-add the
most recently computed pairwise force. -/
theorem C1_force_first (b : Body) (rest : List Body)
    (hid : ∀ t ∈ rest, t.id ≠ b.id) (_hpos : ∀ t ∈ rest, t.p ≠ b.p) :
    force b (b :: rest) = sumForces b rest := by
  unfold force sumForces
  simp only [forceLoop]
  rw [if_true, forceLoop_no_self b rest _ _ hid]
  norm_num [vadd]

/-- C1 witness: the amended statement applied to `cbA` against `[cbOther]`. -/
theorem C1_witness :
    ((∀ t ∈ [cbOther], t.id ≠ cbA.id) ∧ (∀ t ∈ [cbOther], t.p ≠ cbA.p)) ∧
      force cbA (cbA :: [cbOther]) = sumForces cbA [cbOther] := by
  have h1 : ∀ t ∈ [cbOther], t.id ≠ cbA.id := by
    intro t ht
    rw [List.mem_singleton] at ht
    subst ht
    norm_num [cbA, cbOther]
  have h2 : ∀ t ∈ [cbOther], t.p ≠ cbA.p := by
    intro t ht
    rw [List.mem_singleton] at ht
    subst ht
    norm_num [cbA, cbOther, Prod.ext_iff]
  exact ⟨⟨h1, h2⟩, C1_force_first cbA [cbOther] h1 h2⟩

/-- C5: if `0 < h ≤ hmax` holds before `update` and the local truncation
error of the step is nonzero (with the fixed tolerance `10000`), then
after `update` the step satisfies `0 < h ≤ hmax`, and the committed step
is exactly `h * sqrt(10000 / lte)` clamped to `hmax` from above (no
lower bound). -/
theorem C5_step_bound (b : Body) (ts : List Body)
    (h0 : 0 < b.h) (h1 : b.h ≤ b.hmax) (h2 : b.lte_tolerance = 10000)
    (h3 : lteOf b ts ≠ 0) :
    (0 < (update b ts).h ∧ (update b ts).h ≤ b.hmax) ∧
      (update b ts).h =
        if b.h * Real.sqrt (10000 / lteOf b ts) > b.hmax then b.hmax
        else b.h * Real.sqrt (10000 / lteOf b ts) := by
  have hlte0 : 0 ≤ lteOf b ts :=
    add_nonneg (vnorm_nonneg _) (mul_nonneg h0.le (vnorm_nonneg _))
  have hlte : 0 < lteOf b ts := lt_of_le_of_ne hlte0 (Ne.symm h3)
  have hhnew : 0 < hnewOf b ts := by
    unfold hnewOf
    rw [h2]
    exact mul_pos h0 (Real.sqrt_pos.mpr (div_pos (by norm_num) hlte))
  have hform : hnewOf b ts = b.h * Real.sqrt (10000 / lteOf b ts) := by
    unfold hnewOf
    rw [h2]
  rw [update_spec]
  by_cases hc : hnewOf b ts > b.hmax
  · rw [if_pos hc]
    refine ⟨⟨lt_of_lt_of_le h0 h1, le_refl _⟩, ?_⟩
    rw [← hform, if_pos hc]
  · rw [if_neg hc]
    push_neg at hc
    refine ⟨⟨hhnew, hc⟩, ?_⟩
    rw [← hform, if_neg (not_lt.mpr hc)]

/-- C5 witness: the bound applied to `cbA` against `[cbA, cbOther]`,
whose local truncation error is `2`. -/
theorem C5_witness :
    (0 < cbA.h ∧ cbA.h ≤ cbA.hmax ∧ cbA.lte_tolerance = 10000 ∧
        lteOf cbA [cbA, cbOther] ≠ 0) ∧
      (0 < (update cbA [cbA, cbOther]).h ∧ (update cbA [cbA, cbOther]).h ≤ cbA.hmax) := by
  have h3 : lteOf cbA [cbA, cbOther] ≠ 0 := by
    rw [lteOf_A]
    norm_num
  refine ⟨⟨by norm_num [cbA], by norm_num [cbA], rfl, h3⟩, ?_⟩
  exact (C5_step_bound cbA [cbA, cbOther] (by norm_num [cbA]) (by norm_num [cbA]) rfl h3).1

/-! ### Characterization of the collision check -/

theorem collision_iff (self : Body) : ∀ ts : List Body,
    collision self ts ↔
      ∃ t ∈ ts, (t.id = self.id ∧ spacemax < vnorm self.p) ∨
        (t.id ≠ self.id ∧ vnorm (vsub t.p self.p) < t.r + self.r) := by
  intro ts
  induction ts with
  | nil => simp [collision]
  | cons t ts ih =>
    by_cases h1 : t.id = self.id
    · by_cases h2 : spacemax < vnorm self.p
      · simp [collision, h1, h2]
      · simp [collision, h1, h2, ih]
    · by_cases h2 : vnorm (vsub t.p self.p) < t.r + self.r
      · simp [collision, h1, h2]
      · simp [collision, h1, h2, ih]

/-! ### Lemmas about removal and the collision pass -/

theorem removeFirst_head_ne (a : Body) (t : List Body) (nid : ℕ) (h : a.id ≠ nid) :
    removeFirst nid (a :: t) = a :: removeFirst nid t := by
  simp only [removeFirst]
  rw [if_neg h]

theorem removeFirst_sublist (nid : ℕ) : ∀ l : List Body, List.Sublist (removeFirst nid l) l := by
  intro l
  induction l with
  | nil => exact List.Sublist.refl []
  | cons b bs ih =>
    simp only [removeFirst]
    by_cases h : b.id = nid
    · rw [if_pos h]
      exact List.sublist_cons_self b bs
    · rw [if_neg h]
      exact ih.cons₂ b

theorem removeFirst_append_ne (nid : ℕ) : ∀ (pre l : List Body), (∀ b ∈ pre, b.id ≠ nid) →
    removeFirst nid (pre ++ l) = pre ++ removeFirst nid l := by
  intro pre
  induction pre with
  | nil => intro l _; rfl
  | cons b bs ih =>
    intro l h
    rw [List.cons_append]
    rw [removeFirst_head_ne _ _ _ (h b (List.mem_cons_self _ _))]
    rw [ih l (fun x hx => h x (List.mem_cons_of_mem _ hx)), List.cons_append]

theorem passGo_skip : ∀ (l rest live : List Body), (∀ b ∈ l, ¬collision b live) →
    collisionPassGo (l ++ rest) live = collisionPassGo rest live := by
  intro l
  induction l with
  | nil => intro rest live _; rfl
  | cons b bs ih =>
    intro rest live h
    rw [List.cons_append]
    simp only [collisionPassGo]
    rw [if_neg (h b (List.mem_cons_self _ _))]
    exact ih rest live (fun x hx => h x (List.mem_cons_of_mem _ hx))

theorem passGo_none : ∀ (l live : List Body), (∀ b ∈ l, ¬collision b live) →
    collisionPassGo l live = live := by
  intro l
  induction l with
  | nil => intro live _; rfl
  | cons b bs ih =>
    intro live h
    simp only [collisionPassGo]
    rw [if_neg (h b (List.mem_cons_self _ _))]
    exact ih live (fun x hx => h x (List.mem_cons_of_mem _ hx))

theorem passGo_head : ∀ (snap : List Body) (a : Body) (t : List Body),
    (∀ b ∈ snap, b.id ≠ a.id) →
    ∃ t2, collisionPassGo snap (a :: t) = a :: t2 ∧ List.Sublist t2 t := by
  intro snap
  induction snap with
  | nil => intro a t _; exact ⟨t, rfl, List.Sublist.refl t⟩
  | cons b rest ih =>
    intro a t h
    have hb : a.id ≠ b.id := Ne.symm (h b (List.mem_cons_self _ _))
    have hrest : ∀ x ∈ rest, x.id ≠ a.id := fun x hx => h x (List.mem_cons_of_mem _ hx)
    simp only [collisionPassGo]
    by_cases hc : collision b (a :: t)
    · rw [if_pos hc, removeFirst_head_ne a t b.id hb]
      obtain ⟨t2, heq, hsub⟩ := ih a (removeFirst b.id t) hrest
      exact ⟨t2, heq, hsub.trans (removeFirst_sublist b.id t)⟩
    · rw [if_neg hc]
      exact ih a t hrest

/-! ### Lemmas about the advance loop -/

theorem advanceSteps_length : ∀ (n s : ℕ) (bs : List Body),
    (advanceSteps n s bs).length = bs.length := by
  intro n
  induction n with
  | zero => intro s bs; rfl
  | succ n ih =>
    intro s bs
    simp only [advanceSteps]
    rw [ih, List.length_set]

theorem mapid_set (u : Body) : ∀ (l : List Body) (s : ℕ),
    u.id = (l.getD s default).id → (l.set s u).map Body.id = l.map Body.id := by
  intro l
  induction l with
  | nil => intro s _; rfl
  | cons a l ih =>
    intro s h
    cases s with
    | zero =>
      rw [List.getD_cons_zero] at h
      simp only [List.set, List.map]
      rw [h]
    | succ s =>
      rw [List.getD_cons_succ] at h
      simp only [List.set, List.map]
      rw [ih s h]

theorem advanceSteps_mapid : ∀ (n s : ℕ) (bs : List Body),
    (advanceSteps n s bs).map Body.id = bs.map Body.id := by
  intro n
  induction n with
  | zero => intro s bs; rfl
  | succ n ih =>
    intro s bs
    simp only [advanceSteps]
    rw [ih, mapid_set _ _ _ (update_id _ _)]

theorem getD_set_ne (u : Body) : ∀ (l : List Body) (i j : ℕ), i ≠ j →
    (l.set i u).getD j default = l.getD j default := by
  intro l
  induction l with
  | nil => intro i j _; cases i <;> rfl
  | cons a l ih =>
    intro i j hij
    cases i with
    | zero =>
      cases j with
      | zero => exact absurd rfl hij
      | succ j => rfl
    | succ i =>
      cases j with
      | zero => rfl
      | succ j =>
        simp only [List.set, List.getD_cons_succ]
        exact ih i j (fun h => hij (congrArg Nat.succ h))

theorem getD_set_self (u : Body) : ∀ (l : List Body) (i : ℕ), i < l.length →
    (l.set i u).getD i default = u := by
  intro l
  induction l with
  | nil => intro i h; simp at h
  | cons a l ih =>
    intro i h
    cases i with
    | zero => rfl
    | succ i =>
      simp only [List.set, List.getD_cons_succ]
      exact ih i (by simpa using h)

theorem advanceSteps_add : ∀ (m n s : ℕ) (bs : List Body),
    advanceSteps (m + n) s bs = advanceSteps n (s + m) (advanceSteps m s bs) := by
  intro m
  induction m with
  | zero => intro n s bs; rw [Nat.zero_add, Nat.add_zero]; rfl
  | succ m ih =>
    intro n s bs
    rw [show m + 1 + n = m + n + 1 from by omega]
    simp only [advanceSteps]
    rw [ih n (s + 1) _, show s + 1 + m = s + (m + 1) from by omega]

theorem advanceSteps_getD_lt : ∀ (n s j : ℕ) (bs : List Body), j < s →
    (advanceSteps n s bs).getD j default = bs.getD j default := by
  intro n
  induction n with
  | zero => intro s j bs _; rfl
  | succ n ih =>
    intro s j bs h
    simp only [advanceSteps]
    rw [ih (s + 1) j _ (by omega), getD_set_ne _ _ _ _ (by omega)]

theorem advanceSteps_getD_ge : ∀ (n s j : ℕ) (bs : List Body), s + n ≤ j →
    (advanceSteps n s bs).getD j default = bs.getD j default := by
  intro n
  induction n with
  | zero => intro s j bs _; rfl
  | succ n ih =>
    intro s j bs h
    simp only [advanceSteps]
    rw [ih (s + 1) j _ (by omega), getD_set_ne _ _ _ _ (by omega)]

/-! ### The head of the body list survives a tick -/

theorem update_orbits_cons (a : Body) (t : List Body)
    (h2 : ∀ b ∈ t, b.id ≠ a.id) :
    ∃ a2 t2, update_orbits (a :: t) = a2 :: t2 ∧ a2.id = a.id ∧
      ∀ b ∈ t2, b.id ∈ t.map Body.id := by
  have hlen : (advanceAll (a :: t)).length = t.length + 1 := by
    unfold advanceAll
    rw [advanceSteps_length]
    rfl
  have hmap : (advanceAll (a :: t)).map Body.id = a.id :: t.map Body.id := by
    unfold advanceAll
    rw [advanceSteps_mapid]
    rfl
  obtain ⟨a2, t1, heq⟩ : ∃ a2 t1, advanceAll (a :: t) = a2 :: t1 := by
    cases hx : advanceAll (a :: t) with
    | nil => rw [hx] at hlen; simp at hlen
    | cons x xs => exact ⟨x, xs, rfl⟩
  rw [heq, List.map_cons] at hmap
  have ha2 : a2.id = a.id := (List.cons.injEq _ _ _ _ ▸ hmap).1
  have ht1 : t1.map Body.id = t.map Body.id := (List.cons.injEq _ _ _ _ ▸ hmap).2
  have ht1ids : ∀ b ∈ t1, b.id ∈ t.map Body.id := by
    intro b hb
    rw [← ht1]
    exact List.mem_map_of_mem _ hb
  have hsnap : ∀ b ∈ t1, b.id ≠ a2.id := by
    intro b hb
    rw [ha2]
    obtain ⟨c, hc, hcid⟩ := List.mem_map.mp (ht1ids b hb)
    rw [← hcid]
    exact h2 c hc
  obtain ⟨t2, hpass, hsub⟩ := passGo_head t1 a2 t1 hsnap
  refine ⟨a2, t2, ?_, ha2, ?_⟩
  · unfold update_orbits collisionPass
    rw [heq]
    exact hpass
  · intro b hb
    exact ht1ids b (hsub.subset hb)

/-! ### Claims C2, C4, C9 -/

/-- C2: the spec claims `force(A,[A,B])` and `force(B,[A,B])` are
anti-parallel with equal magnitudes.  On the code, for `A = cbA` and
`B = cbOther` (unit separation, `G * m_A * m_B = 1`), the first force is
`(0, 1)` but the second is `(0, -2)`: anti-parallel, yet twice the
magnitude, because the `target == self` iteration of the force loop
re-adds the previously computed pairwise force instead of skipping. -/
theorem C2_force_asymmetry :
    force cbA [cbA, cbOther] = (0, 1) ∧ force cbOther [cbA, cbOther] = (0, -2) :=
  ⟨force_A, force_O⟩

/-- C4 counterexample: the claim says the second force evaluation of the
corrector equals the first (`f1 = f0`), so the committed velocity would
be `v + h * (f0 + f0) / (2 * m)`.  For `cbA` against `[cbA, cbOther]`
the code commits velocity `(0, 5/2)`, while the claimed formula gives
`(0, 1)`. -/
theorem C4_counterexample :
    (update cbA [cbA, cbOther]).v ≠
      vadd cbA.v (vdivs (vsmul cbA.h
        (vadd (force cbA [cbA, cbOther]) (force cbA [cbA, cbOther]))) (2 * cbA.m)) := by
  rw [update_v, heunVel_A, force_A]
  norm_num [cbA, vadd, vsmul, vdivs, Prod.ext_iff]

/-- C4 (amended): `Body.update` assigns `self.p` one line before the
second `self.force(targets)` call, so the second force evaluation is
taken on the body at the already-committed Heun position (velocity still
pre-call), and the committed velocity is
`v + h * (f0 + f1) / (2 * m)` with `f1 = force` at the updated position. -/
theorem C4_second_force_at_updated_position (b : Body) (ts : List Body) :
    (update b ts).p = heunPos b ts ∧
      (update b ts).v =
        vadd b.v (vdivs (vsmul b.h
          (vadd (force b ts) (force { b with p := heunPos b ts } ts))) (2 * b.m)) :=
  ⟨update_p b ts, update_v b ts⟩

/-- C9: spawning with `(mass, velocity, position, color, radius)` yields
a body present in the live list whose mass, velocity, position and
radius are exactly the arguments and whose step size `h` equals `hmax`. -/
theorem C9_spawn_correct (bs : List Body) (nid : ℕ) (mass : ℝ) (vel pos : ℝ × ℝ)
    (col : ℕ × ℕ × ℕ) (rad : ℝ) :
    mkBody nid mass vel pos col rad ∈ spawn bs nid mass vel pos col rad ∧
      (mkBody nid mass vel pos col rad).m = mass ∧
      (mkBody nid mass vel pos col rad).v = vel ∧
      (mkBody nid mass vel pos col rad).p = pos ∧
      (mkBody nid mass vel pos col rad).r = rad ∧
      (mkBody nid mass vel pos col rad).h = (mkBody nid mass vel pos col rad).hmax := by
  refine ⟨?_, rfl, rfl, rfl, rfl, rfl⟩
  unfold spawn
  exact List.mem_append_right _ (List.mem_singleton.mpr rfl)

/-! ### Distances and norms of the collision example bodies -/

theorem dist_anchor_B : vnorm (vsub cpB.p cpAnchor.p) = 1e8 :=
  vnorm_eq _ _ (by norm_num) (by norm_num [vsub, cpAnchor, cpB])

theorem dist_B_anchor : vnorm (vsub cpAnchor.p cpB.p) = 1e8 :=
  vnorm_eq _ _ (by norm_num) (by norm_num [vsub, cpAnchor, cpB])

theorem dist_anchor_C : vnorm (vsub cpC.p cpAnchor.p) = 1.02e8 :=
  vnorm_eq _ _ (by norm_num) (by norm_num [vsub, cpAnchor, cpC])

theorem dist_C_anchor : vnorm (vsub cpAnchor.p cpC.p) = 1.02e8 :=
  vnorm_eq _ _ (by norm_num) (by norm_num [vsub, cpAnchor, cpC])

theorem dist_B_C : vnorm (vsub cpC.p cpB.p) = 2e6 :=
  vnorm_eq _ _ (by norm_num) (by norm_num [vsub, cpB, cpC])

theorem dist_C_B : vnorm (vsub cpB.p cpC.p) = 2e6 :=
  vnorm_eq _ _ (by norm_num) (by norm_num [vsub, cpB, cpC])

theorem norm_anchor : vnorm cpAnchor.p = 0 :=
  vnorm_eq _ _ (by norm_num) (by norm_num [cpAnchor])

theorem norm_B : vnorm cpB.p = 1e8 :=
  vnorm_eq _ _ (by norm_num) (by norm_num [cpB])

theorem norm_C : vnorm cpC.p = 1.02e8 :=
  vnorm_eq _ _ (by norm_num) (by norm_num [cpC])

theorem dist_anchor_far : vnorm (vsub cpFar.p cpAnchor.p) = 2e8 :=
  vnorm_eq _ _ (by norm_num) (by norm_num [vsub, cpAnchor, cpFar])

theorem dist_far_anchor : vnorm (vsub cpAnchor.p cpFar.p) = 2e8 :=
  vnorm_eq _ _ (by norm_num) (by norm_num [vsub, cpAnchor, cpFar])

theorem norm_far : vnorm cpFar.p = 2e8 :=
  vnorm_eq _ _ (by norm_num) (by norm_num [cpFar])

/-! ### Claims C6, C8, C10 -/

/-- C6 counterexample: `cpFar` is a non-anchor body whose distance to the
only other body (`2e8`) is at least the radius sum (`4.8e6`), so the
claim says it is not removed; yet the collision pass removes it, because
`Body.collision` also returns `True` when the body's own distance from
the origin exceeds `spacemax`. -/
theorem C6_counterexample :
    collisionPass [cpAnchor, cpFar] = [cpAnchor] ∧
      ¬vnorm (vsub cpAnchor.p cpFar.p) < cpAnchor.r + cpFar.r := by
  have hcol : collision cpFar [cpAnchor, cpFar] := by
    rw [collision_iff]
    refine ⟨cpFar, by simp, Or.inl ⟨rfl, ?_⟩⟩
    rw [norm_far]
    norm_num [spacemax]
  constructor
  · show collisionPassGo [cpFar] [cpAnchor, cpFar] = [cpAnchor]
    simp only [collisionPassGo]
    rw [if_pos hcol]
    simp only [removeFirst]
    norm_num [cpAnchor, cpFar]
  · rw [dist_far_anchor]
    norm_num [cpAnchor, cpFar]

/-- C6 (amended): during the collision pass each non-anchor body is
checked once against the then-live list (which contains it); the check
succeeds — removing the body — iff its distance to some other body of
that list is less than the sum of the two radii, OR its own distance
from the origin exceeds the space boundary (the escape test is run for
every body reaching its own entry, not only for the anchor). -/
theorem C6_removed_iff (b : Body) (ts : List Body) (hb : b ∈ ts) :
    collision b ts ↔
      spacemax < vnorm b.p ∨
        ∃ t ∈ ts, t.id ≠ b.id ∧ vnorm (vsub t.p b.p) < t.r + b.r := by
  rw [collision_iff]
  constructor
  · rintro ⟨t, ht, h | h⟩
    · exact Or.inl h.2
    · exact Or.inr ⟨t, ht, h⟩
  · rintro (h | ⟨t, ht, h⟩)
    · exact ⟨b, hb, Or.inl ⟨rfl, h⟩⟩
    · exact ⟨t, ht, Or.inr h⟩

/-- C6 witness: the characterization applied to `cpFar` in the live list
`[cpAnchor, cpFar]`. -/
theorem C6_witness :
    cpFar ∈ [cpAnchor, cpFar] ∧
      (collision cpFar [cpAnchor, cpFar] ↔
        spacemax < vnorm cpFar.p ∨
          ∃ t ∈ [cpAnchor, cpFar], t.id ≠ cpFar.id ∧
            vnorm (vsub t.p cpFar.p) < t.r + cpFar.r) :=
  ⟨by simp, C6_removed_iff cpFar [cpAnchor, cpFar] (by simp)⟩

/-- C8: if after a tick (`update_orbits`) the body at index 0 sits
farther from the origin than `spacemax`, the main loop calls
`sys.exit(0)` — termination with success status; moreover the collision
pass never removes the head: for any tick the resulting list is nonempty
and its head is the same body (by identity) as the pre-tick head. -/
theorem C8_escape_terminates (bs : List Body) (h1 : bs ≠ [])
    (h2 : ∀ b ∈ bs.tail, b.id ≠ (bs.headD default).id)
    (hesc : spacemax < vnorm ((update_orbits bs).headD default).p) :
    sessionStep bs = TickResult.terminated 0 ∧
      update_orbits bs ≠ [] ∧
      ((update_orbits bs).headD default).id = (bs.headD default).id := by
  obtain ⟨a, t, rfl⟩ : ∃ a t, bs = a :: t := by
    cases bs with
    | nil => exact absurd rfl h1
    | cons a t => exact ⟨a, t, rfl⟩
  obtain ⟨a2, t2, heq, ha2, _⟩ := update_orbits_cons a t (by simpa using h2)
  refine ⟨?_, ?_, ?_⟩
  · unfold sessionStep
    rw [if_pos hesc]
  · rw [heq]
    simp
  · rw [heq]
    simpa using ha2

theorem escB_force : force escB [escB] = (0, 0) := by
  unfold force
  simp only [forceLoop]
  norm_num [escB, vadd]

theorem escB_heunPos : heunPos escB [escB] = (0, 2.6e8) := by
  unfold heunPos eulerVel
  rw [escB_force]
  norm_num [escB, vadd, vsmul, vdivs]

/-- C8 witness: a single body whose step carries it to `(0, 2.6e8)`,
beyond `spacemax = 1.7e8`; the session step exits with code 0. -/
theorem C8_witness :
    (([escB] : List Body) ≠ [] ∧
      (∀ b ∈ ([escB] : List Body).tail, b.id ≠ (([escB] : List Body).headD default).id) ∧
      spacemax < vnorm ((update_orbits [escB]).headD default).p) ∧
      sessionStep [escB] = TickResult.terminated 0 := by
  have hub : update_orbits [escB] = [update escB [escB]] := rfl
  have hesc : spacemax < vnorm ((update_orbits [escB]).headD default).p := by
    rw [hub, show ([update escB [escB]].headD default) = update escB [escB] from rfl,
      update_p, escB_heunPos,
      vnorm_eq ((0 : ℝ), (2.6e8 : ℝ)) 2.6e8 (by norm_num) (by norm_num)]
    norm_num [spacemax]
  exact ⟨⟨by simp, by simp, hesc⟩,
    (C8_escape_terminates [escB] (by simp) (by simp) hesc).1⟩

/-- C10: in every reachable state of the session the live list is
nonempty, its head is the anchor created at initialization (identity
`0`), and no later element carries that identity: ticks update the head
in place and the collision pass only removes tail elements, spawns
append fresh identities at the end. -/
theorem C10_anchor_at_head (bs : List Body) (hr : Reachable bs) :
    ∃ a t, bs = a :: t ∧ a.id = 0 ∧ ∀ b ∈ t, b.id ≠ 0 := by
  induction hr with
  | init col =>
    refine ⟨mkBody 0 5.97e24 (0, 0) (0, 0) (0, 0, 255) 32e5,
      [mkBody 1 1e20 (4e3, 0) (0, 42e6) col 16e5], rfl, rfl, ?_⟩
    intro b hb
    rw [List.mem_singleton] at hb
    subst hb
    norm_num [mkBody]
  | tick bs hr ih =>
    obtain ⟨a, t, rfl, ha, ht⟩ := ih
    obtain ⟨a2, t2, heq, ha2, ht2⟩ :=
      update_orbits_cons a t (fun b hb => by rw [ha]; exact ht b hb)
    refine ⟨a2, t2, heq, by rw [ha2, ha], ?_⟩
    intro b hb
    obtain ⟨c, hc, hcid⟩ := List.mem_map.mp (ht2 b hb)
    rw [← hcid]
    exact ht c hc
  | spawned bs nid mass vel pos col rad hr hfresh ih =>
    obtain ⟨a, t, rfl, ha, ht⟩ := ih
    refine ⟨a, t ++ [mkBody nid mass vel pos col rad], ?_, ha, ?_⟩
    · unfold spawn
      rw [List.cons_append]
    · intro b hb
      rcases List.mem_append.mp hb with h | h
      · exact ht b h
      · rw [List.mem_singleton] at h
        subst h
        intro h0
        apply hfresh
        have hmem : a.id ∈ (a :: t).map Body.id :=
          List.mem_map_of_mem Body.id (List.mem_cons_self a t)
        rw [ha] at hmem
        have h0' : nid = 0 := h0
        rw [h0']
        exact hmem

/-! ### Claim C7 -/

/-- C7 counterexample: `[cpAnchor, cpB, cpC]` has exactly one pair with
overlapping radii, `cpB`/`cpC`, both non-anchor; the claim says the pass
removes both (live set shrinks to length 1).  The code removes only
`cpB`: when `cpC` is checked, `cpB` has already been removed from the
live list, so `cpC` finds no partner and survives. -/
theorem C7_counterexample :
    collisionPass [cpAnchor, cpB, cpC] = [cpAnchor, cpC] ∧
      (collisionPass [cpAnchor, cpB, cpC]).length ≠ 1 := by
  have hcolB : collision cpB [cpAnchor, cpB, cpC] := by
    rw [collision_iff]
    refine ⟨cpC, by simp, Or.inr ⟨by norm_num [cpB, cpC], ?_⟩⟩
    rw [dist_B_C]
    norm_num [cpB, cpC]
  have hnoC : ¬collision cpC [cpAnchor, cpC] := by
    rw [collision_iff]
    rintro ⟨t, ht, hcase | hcase⟩
    · rcases hcase with ⟨_, h2⟩
      rw [norm_C] at h2
      norm_num [spacemax] at h2
    · rcases hcase with ⟨hne, hd⟩
      simp only [List.mem_cons, List.not_mem_nil, or_false] at ht
      rcases ht with rfl | rfl
      · rw [dist_C_anchor] at hd
        norm_num [cpAnchor, cpC] at hd
      · exact hne rfl
  have hmain : collisionPass [cpAnchor, cpB, cpC] = [cpAnchor, cpC] := by
    show collisionPassGo [cpB, cpC] [cpAnchor, cpB, cpC] = [cpAnchor, cpC]
    have hrm : removeFirst cpB.id [cpAnchor, cpB, cpC] = [cpAnchor, cpC] := by
      simp only [removeFirst]
      norm_num [cpAnchor, cpB]
    simp only [collisionPassGo]
    rw [if_pos hcolB, hrm, if_neg hnoC]
  exact ⟨hmain, by rw [hmain]; norm_num⟩

/-- C7 (amended): in a tick whose live list `a :: (l1 ++ x :: l2)` has
pairwise-distinct identities, no body beyond the space boundary, and
exactly one pair within radius sum — `x` together with `y`, where `y` is
the anchor `a` or comes after `x` — the collision pass removes exactly
`x`, the earliest-checked non-anchor member of the pair (by the time the
later member is checked its partner is gone), so the live set shrinks by
exactly 1 whether or not the anchor is in the pair. -/
theorem C7_single_pair (a x y : Body) (l1 l2 : List Body)
    (hy : y = a ∨ y ∈ l2)
    (hids : (a :: (l1 ++ x :: l2)).Pairwise (fun b c => b.id ≠ c.id))
    (hnoesc : ∀ b ∈ a :: (l1 ++ x :: l2), vnorm b.p ≤ spacemax)
    (hcol : vnorm (vsub y.p x.p) < y.r + x.r)
    (honly : ∀ b ∈ a :: (l1 ++ x :: l2), ∀ c ∈ a :: (l1 ++ x :: l2),
      vnorm (vsub c.p b.p) < c.r + b.r → c.id ≠ b.id →
      (b.id = x.id ∧ c.id = y.id) ∨ (b.id = y.id ∧ c.id = x.id)) :
    collisionPass (a :: (l1 ++ x :: l2)) = a :: (l1 ++ l2) := by
  have hxmem : x ∈ l1 ++ x :: l2 := List.mem_append_right _ (List.mem_cons_self _ _)
  have hyL : y ∈ a :: (l1 ++ x :: l2) := by
    rcases hy with rfl | h
    · exact List.mem_cons_self _ _
    · exact List.mem_cons_of_mem _ (List.mem_append_right _ (List.mem_cons_of_mem _ h))
  rw [List.pairwise_cons] at hids
  obtain ⟨hA, hTail⟩ := hids
  rw [List.pairwise_append] at hTail
  obtain ⟨hl1, hxl2, hl1x⟩ := hTail
  rw [List.pairwise_cons] at hxl2
  obtain ⟨hx2, hl2⟩ := hxl2
  have hax : a.id ≠ x.id := hA x hxmem
  have hyx : y.id ≠ x.id := by
    rcases hy with rfl | h
    · exact hax
    · exact Ne.symm (hx2 y h)
  have hno1 : ∀ b ∈ l1, ¬collision b (a :: (l1 ++ x :: l2)) := by
    intro b hb
    have hbL : b ∈ a :: (l1 ++ x :: l2) :=
      List.mem_cons_of_mem _ (List.mem_append_left _ hb)
    have hbx : b.id ≠ x.id := hl1x b hb x (List.mem_cons_self _ _)
    have hby : b.id ≠ y.id := by
      rcases hy with rfl | h
      · exact fun hh => (hA b (List.mem_append_left _ hb)) hh.symm
      · exact hl1x b hb y (List.mem_cons_of_mem _ h)
    rw [collision_iff]
    rintro ⟨t, htL, hcase | hcase⟩
    · exact absurd hcase.2 (not_lt.mpr (hnoesc b hbL))
    · rcases honly b hbL t htL hcase.2 hcase.1 with ⟨h1, _⟩ | ⟨h1, _⟩
      · exact hbx h1
      · exact hby h1
  have hcolx : collision x (a :: (l1 ++ x :: l2)) := by
    rw [collision_iff]
    exact ⟨y, hyL, Or.inr ⟨hyx, hcol⟩⟩
  have hrm : removeFirst x.id (a :: (l1 ++ x :: l2)) = a :: (l1 ++ l2) := by
    rw [removeFirst_head_ne _ _ _ hax,
      removeFirst_append_ne _ l1 _ (fun b hb => hl1x b hb x (List.mem_cons_self _ _))]
    congr 1
    congr 1
    simp only [removeFirst]
    rw [if_true]
  have hno2 : ∀ b ∈ l2, ¬collision b (a :: (l1 ++ l2)) := by
    intro b hb
    have hbL : b ∈ a :: (l1 ++ x :: l2) :=
      List.mem_cons_of_mem _ (List.mem_append_right _ (List.mem_cons_of_mem _ hb))
    have hbx : b.id ≠ x.id := fun hh => (hx2 b hb) hh.symm
    rw [collision_iff]
    rintro ⟨t, htR, hcase | hcase⟩
    · exact absurd hcase.2 (not_lt.mpr (hnoesc b hbL))
    · have htL : t ∈ a :: (l1 ++ x :: l2) := by
        rcases List.mem_cons.mp htR with rfl | ht'
        · exact List.mem_cons_self _ _
        · rcases List.mem_append.mp ht' with h' | h'
          · exact List.mem_cons_of_mem _ (List.mem_append_left _ h')
          · exact List.mem_cons_of_mem _
              (List.mem_append_right _ (List.mem_cons_of_mem _ h'))
      rcases honly b hbL t htL hcase.2 hcase.1 with ⟨h1, _⟩ | ⟨_, h2⟩
      · exact hbx h1
      · rcases List.mem_cons.mp htR with rfl | ht'
        · exact hax h2
        · rcases List.mem_append.mp ht' with h' | h'
          · exact (hl1x t h' x (List.mem_cons_self _ _)) h2
          · exact (hx2 t h') h2.symm
  show collisionPassGo (l1 ++ x :: l2) (a :: (l1 ++ x :: l2)) = a :: (l1 ++ l2)
  rw [passGo_skip l1 (x :: l2) _ hno1]
  simp only [collisionPassGo]
  rw [if_pos hcolx, hrm]
  exact passGo_none l2 _ hno2

/-- C7 witness: the amended statement at the three-body configuration
`[cpAnchor, cpB, cpC]` whose only overlapping pair is `cpB`/`cpC`. -/
theorem C7_witness :
    ((cpC = cpAnchor ∨ cpC ∈ [cpC]) ∧
      ([cpAnchor, cpB, cpC] : List Body).Pairwise (fun b c => b.id ≠ c.id) ∧
      (∀ b ∈ ([cpAnchor, cpB, cpC] : List Body), vnorm b.p ≤ spacemax) ∧
      vnorm (vsub cpC.p cpB.p) < cpC.r + cpB.r ∧
      (∀ b ∈ ([cpAnchor, cpB, cpC] : List Body),
        ∀ c ∈ ([cpAnchor, cpB, cpC] : List Body),
        vnorm (vsub c.p b.p) < c.r + b.r → c.id ≠ b.id →
        (b.id = cpB.id ∧ c.id = cpC.id) ∨ (b.id = cpC.id ∧ c.id = cpB.id))) ∧
      collisionPass [cpAnchor, cpB, cpC] = [cpAnchor, cpC] := by
  have hy : cpC = cpAnchor ∨ cpC ∈ [cpC] := Or.inr (List.mem_singleton.mpr rfl)
  have hids : ([cpAnchor, cpB, cpC] : List Body).Pairwise (fun b c => b.id ≠ c.id) := by
    simp [List.pairwise_cons, cpAnchor, cpB, cpC]
  have hnoesc : ∀ b ∈ ([cpAnchor, cpB, cpC] : List Body), vnorm b.p ≤ spacemax := by
    intro b hb
    simp only [List.mem_cons, List.not_mem_nil, or_false] at hb
    rcases hb with rfl | rfl | rfl
    · rw [norm_anchor]; norm_num [spacemax]
    · rw [norm_B]; norm_num [spacemax]
    · rw [norm_C]; norm_num [spacemax]
  have hcol : vnorm (vsub cpC.p cpB.p) < cpC.r + cpB.r := by
    rw [dist_B_C]
    norm_num [cpB, cpC]
  have honly : ∀ b ∈ ([cpAnchor, cpB, cpC] : List Body),
      ∀ c ∈ ([cpAnchor, cpB, cpC] : List Body),
      vnorm (vsub c.p b.p) < c.r + b.r → c.id ≠ b.id →
      (b.id = cpB.id ∧ c.id = cpC.id) ∨ (b.id = cpC.id ∧ c.id = cpB.id) := by
    intro b hb c hc hd hne
    simp only [List.mem_cons, List.not_mem_nil, or_false] at hb hc
    rcases hb with rfl | rfl | rfl <;> rcases hc with rfl | rfl | rfl
    · exact absurd rfl hne
    · rw [dist_anchor_B] at hd
      norm_num [cpAnchor, cpB] at hd
    · rw [dist_anchor_C] at hd
      norm_num [cpAnchor, cpC] at hd
    · rw [dist_B_anchor] at hd
      norm_num [cpAnchor, cpB] at hd
    · exact absurd rfl hne
    · exact Or.inl ⟨rfl, rfl⟩
    · rw [dist_C_anchor] at hd
      norm_num [cpAnchor, cpC] at hd
    · exact Or.inr ⟨rfl, rfl⟩
    · exact absurd rfl hne
  exact ⟨⟨hy, hids, hnoesc, hcol, honly⟩,
    C7_single_pair cpAnchor cpB cpC [] [cpC] hy hids hnoesc hcol honly⟩

/-! ### Claim C3 -/

theorem force_seq_eval (b : Body) (hid : b.id = 0) (hm : b.m = 1)
    (hp : b.p = ((0 : ℝ), (1 : ℝ) / 2)) : force cbOther [b, cbOther] = (0, -8) := by
  have hn : vnorm (vsub b.p cbOther.p) = 1 / 2 :=
    vnorm_eq _ (1 / 2) (by norm_num) (by norm_num [vsub, cbOther, hp])
  have hpf : pairForce cbOther b = (0, -4) := by
    unfold pairForce
    rw [hn, hm, hp]
    norm_num [cbOther, G, vsub, vsmul, vdivs]
  unfold force
  simp only [forceLoop]
  rw [hpf]
  norm_num [cbOther, hid, vadd]

theorem heunPos_O_seq (b : Body) (hid : b.id = 0) (hm : b.m = 1)
    (hp : b.p = ((0 : ℝ), (1 : ℝ) / 2)) :
    heunPos cbOther [b, cbOther] = (0, 1 - 2668 / 10 ^ 13) := by
  unfold heunPos eulerVel
  rw [force_seq_eval b hid hm hp]
  norm_num [cbOther, vadd, vsmul, vdivs]

theorem heunPos_O_snap : heunPos cbOther [cbA, cbOther] = (0, 1 - 667 / 10 ^ 13) := by
  unfold heunPos eulerVel
  rw [force_O]
  norm_num [cbOther, vadd, vsmul, vdivs]

/-- C3 counterexample: the claim's snapshot semantics (`snapshotAdvanceAll`,
every body updated against the pre-tick list) disagrees with the code's
first loop of `update_orbits`: with `[cbA, cbOther]`, the second body's
committed position depends on `cbA`'s same-tick position update
(`(0, 1 - 2668/10^13)` sequentially vs `(0, 1 - 667/10^13)` from the
snapshot). -/
theorem C3_counterexample :
    ((advanceAll [cbA, cbOther]).getD 1 default).p ≠
      ((snapshotAdvanceAll [cbA, cbOther]).getD 1 default).p := by
  have hA : (advanceAll [cbA, cbOther]).getD 1 default =
      update cbOther [update cbA [cbA, cbOther], cbOther] := rfl
  have hS : (snapshotAdvanceAll [cbA, cbOther]).getD 1 default =
      update cbOther [cbA, cbOther] := rfl
  have hid : (update cbA [cbA, cbOther]).id = 0 := by rw [update_id]; rfl
  have hm : (update cbA [cbA, cbOther]).m = 1 := by rw [update_m]; rfl
  have hp : (update cbA [cbA, cbOther]).p = ((0 : ℝ), (1 : ℝ) / 2) := by
    rw [update_p, heunPos_A]
  rw [hA, hS, update_p, update_p, heunPos_O_snap, heunPos_O_seq _ hid hm hp]
  norm_num [Prod.ext_iff]

/-- C3 (amended): the advances of one tick are interleaved, not
snapshot-isolated: the body at index `i` is updated against the list in
which bodies `0..i-1` already carry their same-tick updates (stage
`advanceSteps i 0 bs`), while its own pre-update state is still its
pre-tick state. -/
theorem C3_interleaved (bs : List Body) (i : ℕ) (hi : i < bs.length) :
    (advanceAll bs).getD i default =
      update ((advanceSteps i 0 bs).getD i default) (advanceSteps i 0 bs) ∧
      (advanceSteps i 0 bs).getD i default = bs.getD i default := by
  constructor
  · have h1 : bs.length = i + (bs.length - i - 1 + 1) := by omega
    unfold advanceAll
    rw [h1, advanceSteps_add i _ 0 bs, Nat.zero_add]
    simp only [advanceSteps]
    rw [advanceSteps_getD_lt _ (i + 1) i _ (by omega)]
    have hlen : i < (advanceSteps i 0 bs).length := by
      rw [advanceSteps_length]
      exact hi
    rw [getD_set_self _ _ _ hlen]
  · exact advanceSteps_getD_ge i 0 i bs (by omega)

/-- C3 witness: the interleaving characterization at index 1 of
`[cbA, cbOther]`. -/
theorem C3_witness :
    1 < ([cbA, cbOther] : List Body).length ∧
      ((advanceAll [cbA, cbOther]).getD 1 default =
        update ((advanceSteps 1 0 [cbA, cbOther]).getD 1 default)
          (advanceSteps 1 0 [cbA, cbOther]) ∧
        (advanceSteps 1 0 [cbA, cbOther]).getD 1 default =
          ([cbA, cbOther] : List Body).getD 1 default) :=
  ⟨by simp, C3_interleaved [cbA, cbOther] 1 (by simp)⟩

/-- C10 witness: the invariant applied to the initial state. -/
theorem C10_witness :
    Reachable (initBodies (0, 0, 0)) ∧
      ∃ a t, initBodies (0, 0, 0) = a :: t ∧ a.id = 0 ∧ ∀ b ∈ t, b.id ≠ 0 :=
  ⟨Reachable.init (0, 0, 0), C10_anchor_at_head _ (Reachable.init (0, 0, 0))⟩

end

end NBody
